import Mathlib

/-!
# Verification of the bluebanquise-installer core

Shallow embedding, in Lean 4, of the decision logic of the
`lmagdanello/bluebanquise-installer` Go program:

* the OS fingerprint resolver (`internal/system/which_os.go`),
* the platform capability table (`DependenciePackages`),
* the environment-file mutator (`AppendLineIfMissing`),
* the artifact installer (`internal/bootstrap/collections.go`),
* the account provisioner (`internal/bootstrap/user.go`),
* the runtime requirement downloader (`DownloadRequirements`),
* the SSH helper (`contains` / `ConfigureSSH`),
* and the command drivers (`cmd/online`, `cmd/offline`,
  `bootstrap.ConfigureEnvironment`).

Pure string manipulation is translated directly; every shell-out or file
system effect is modelled by an explicit outcome parameter plus a trace of
the steps the driver attempts, so ordering and abort behaviour are visible
in the result.
-/

namespace BBInstaller

/-! ## Go `strings` helpers, translated at the character-list level -/

/-- `strings.HasPrefix` on rune lists: `pat` is a prefix of the second list. -/
def isPrefixB : List Char → List Char → Bool
  | [], _ => true
  | _ :: _, [] => false
  | a :: as, b :: bs => a == b && isPrefixB as bs

/-- `strings.Contains` on rune lists: `pat` occurs contiguously in the list. -/
def isInfixB (pat : List Char) : List Char → Bool
  | [] => pat.isEmpty
  | b :: rest => isPrefixB pat (b :: rest) || isInfixB pat rest

/-- `strings.HasSuffix` on rune lists. -/
def isSuffixB (pat s : List Char) : Bool :=
  isPrefixB pat.reverse s.reverse

/-- `strings.Contains(s, pat)`. -/
def strContains (s pat : String) : Bool := isInfixB pat.data s.data

/-- `strings.HasSuffix(s, pat)`. -/
def strEndsWith (s pat : String) : Bool := isSuffixB pat.data s.data

/-- `strings.ToLower`, per-rune lowering as Go does for ASCII input. -/
def goToLower (s : String) : String := ⟨s.data.map Char.toLower⟩

/-- `strings.Split(s, ".")[0]`: everything before the first `'.'`. -/
def splitFirstDot : List Char → List Char
  | [] => []
  | c :: cs => if c == '.' then [] else c :: splitFirstDot cs

/-! ## OS fingerprint resolver (`internal/system/which_os.go`) -/

/-- The `OSMapping` table mapping raw `/etc/os-release` IDs to family tokens. -/
def OSMapping : List (String × String) :=
  [("rhel", "rhel"), ("centos", "rhel"), ("rocky", "rhel"),
   ("almalinux", "rhel"), ("ubuntu", "ubuntu"), ("debian", "debian"),
   ("opensuse-leap", "opensuse-leap"), ("sles", "opensuse-leap")]

/-- Lookup in an association list, the Lean image of a Go map of string
literals. -/
def assocLookup (key : String) : List (String × String) → Option String
  | [] => none
  | (k, v) :: rest => if key = k then some v else assocLookup key rest

/-- `DetectOS` family mapping: `if mappedName, exists := OSMapping[name]`. -/
def resolveFamily (name : String) : String :=
  (assocLookup name OSMapping).getD name

/-- The RHEL-specific version branch of `DetectOS` (which_os.go lines 49-65). -/
def normalizeRhelVersion (version : String) : String :=
  if strContains (goToLower version) "stream" then
    if strContains version "8" then "8"
    else if strContains version "9" then "9"
    else version
  else
    if strContains version "." then ⟨splitFirstDot version.data⟩
    else version

/-- `DetectOS` version handling: only the `rhel` family is rewritten. -/
def resolveVersion (family version : String) : String :=
  if family == "rhel" then normalizeRhelVersion version else version

/-! ### Supporting lemmas for the resolver -/

theorem splitFirstDot_eq_takeWhile (l : List Char) :
    splitFirstDot l = l.takeWhile (fun c => !(c == '.')) := by
  induction l with
  | nil => rfl
  | cons c cs ih =>
    by_cases h : c = '.'
    · simp [splitFirstDot, List.takeWhile, h]
    · have hb : (c == '.') = false := beq_eq_false_iff_ne.mpr h
      simp [splitFirstDot, List.takeWhile, hb, ih]

theorem takeWhile_not_dot_of_not_contains (l : List Char)
    (h : isInfixB ['.'] l = false) :
    l.takeWhile (fun c => !(c == '.')) = l := by
  induction l with
  | nil => rfl
  | cons c cs ih =>
    rw [isInfixB] at h
    have hsplit := Bool.or_eq_false_iff.mp h
    have hpre : (c == '.') = false := by
      have h1 := hsplit.1
      simp only [isPrefixB, Bool.and_true] at h1
      cases hc : c == '.'
      · rfl
      · rw [eq_of_beq hc] at h1
        simp at h1
    simp [List.takeWhile, hpre, ih hsplit.2]

/-- Claim C1: for the `rhel` family the resolver maps any version containing
`"stream"` (case-insensitively) to `"8"` when it contains `"8"`, otherwise to
`"9"` when it contains `"9"`; every other `rhel` version is truncated to the
substring before the first `'.'`; versions of non-`rhel` families pass
through unmodified. -/
theorem C1_rhel_version_normalization :
    (∀ fam v : String, fam ≠ "rhel" → resolveVersion fam v = v) ∧
    (∀ v : String, strContains (goToLower v) "stream" = true →
      strContains v "8" = true → resolveVersion "rhel" v = "8") ∧
    (∀ v : String, strContains (goToLower v) "stream" = true →
      strContains v "8" = false → strContains v "9" = true →
      resolveVersion "rhel" v = "9") ∧
    (∀ v : String, strContains (goToLower v) "stream" = false →
      resolveVersion "rhel" v = ⟨v.data.takeWhile (fun c => !(c == '.'))⟩) := by
  refine ⟨?_, ?_, ?_, ?_⟩
  · intro fam v hfam
    have : (fam == "rhel") = false := beq_eq_false_iff_ne.mpr hfam
    simp [resolveVersion, this]
  · intro v h1 h2
    simp [resolveVersion, normalizeRhelVersion, h1, h2]
  · intro v h1 h2 h3
    simp [resolveVersion, normalizeRhelVersion, h1, h2, h3]
  · intro v h1
    cases hdot : strContains v "."
    · have hdata : isInfixB ['.'] v.data = false := by
        have hd : ("." : String).data = ['.'] := by decide
        rw [strContains, hd] at hdot
        exact hdot
      simp [resolveVersion, normalizeRhelVersion, h1, hdot,
        takeWhile_not_dot_of_not_contains v.data hdata]
    · simp [resolveVersion, normalizeRhelVersion, h1, hdot,
        splitFirstDot_eq_takeWhile]

theorem C1_rhel_version_normalization_witness :
    resolveVersion "rhel" "9.3" = "9" ∧
    resolveVersion "rhel" "CentOS Stream 8" = "8" ∧
    resolveVersion "rhel" "CentOS Stream 9" = "9" ∧
    resolveVersion "ubuntu" "22.04" = "22.04" := by
  refine ⟨?_, ?_, ?_, ?_⟩
  · have h := C1_rhel_version_normalization.2.2.2 "9.3" (by decide)
    rw [h]; decide
  · exact C1_rhel_version_normalization.2.1 "CentOS Stream 8"
      (by decide) (by decide)
  · exact C1_rhel_version_normalization.2.2.1 "CentOS Stream 9"
      (by decide) (by decide) (by decide)
  · exact C1_rhel_version_normalization.1 "ubuntu" "22.04" (by decide)

/-- Claim C2: `centos`, `rocky` and `almalinux` resolve to family `rhel`,
`sles` resolves to `opensuse-leap`, and any identifier absent from the
normalization table passes through unchanged. -/
theorem C2_family_aliasing :
    resolveFamily "centos" = "rhel" ∧
    resolveFamily "rocky" = "rhel" ∧
    resolveFamily "almalinux" = "rhel" ∧
    resolveFamily "sles" = "opensuse-leap" ∧
    ∀ name : String, (∀ p ∈ OSMapping, p.1 ≠ name) → resolveFamily name = name := by
  refine ⟨by decide, by decide, by decide, by decide, ?_⟩
  intro name h
  have h1 : "rhel" ≠ name := h ("rhel", "rhel") (by decide)
  have h2 : "centos" ≠ name := h ("centos", "rhel") (by decide)
  have h3 : "rocky" ≠ name := h ("rocky", "rhel") (by decide)
  have h4 : "almalinux" ≠ name := h ("almalinux", "rhel") (by decide)
  have h5 : "ubuntu" ≠ name := h ("ubuntu", "ubuntu") (by decide)
  have h6 : "debian" ≠ name := h ("debian", "debian") (by decide)
  have h7 : "opensuse-leap" ≠ name := h ("opensuse-leap", "opensuse-leap") (by decide)
  have h8 : "sles" ≠ name := h ("sles", "opensuse-leap") (by decide)
  simp only [resolveFamily, OSMapping, assocLookup]
  rw [if_neg (Ne.symm h1), if_neg (Ne.symm h2), if_neg (Ne.symm h3),
    if_neg (Ne.symm h4), if_neg (Ne.symm h5), if_neg (Ne.symm h6),
    if_neg (Ne.symm h7), if_neg (Ne.symm h8)]
  rfl

theorem C2_family_aliasing_witness :
    resolveFamily "fedora" = "fedora" := by
  exact C2_family_aliasing.2.2.2.2 "fedora" (by decide)

/-! ## SSH helper (`internal/utils/ssh.go`) -/

/-- The `contains(slice, item []byte)` helper used by `ConfigureSSH`,
translated literally: `len(slice) >= len(item) &&
string(slice[len(slice)-len(item):]) == string(item)`. -/
def bytesContains (slice item : List Char) : Bool :=
  decide (item.length ≤ slice.length) &&
    (slice.drop (slice.length - item.length) == item)

/-- The `authorized_keys` update of `ConfigureSSH` when the file already
exists: append the public key only when `contains` does not report it. -/
def configureSSHStep (authKeys pubKey : List Char) : List Char :=
  if bytesContains authKeys pubKey then authKeys else authKeys ++ pubKey

/-- Claim C10: `contains(slice, item)` is true exactly when `item` is a
suffix of `slice`; hence `ConfigureSSH` appends the key again whenever it is
present but not at the very end, and a run is a no-op exactly when the key
is the trailing content of `authorized_keys`. -/
theorem C10_ssh_contains_is_suffix :
    (∀ s i : List Char, bytesContains s i = true ↔ i <:+ s) ∧
    (∀ a k : List Char, k <:+: a → ¬k <:+ a →
      configureSSHStep a k = a ++ k) ∧
    (∀ a k : List Char, k ≠ [] → (configureSSHStep a k = a ↔ k <:+ a)) := by
  have hmain : ∀ s i : List Char, bytesContains s i = true ↔ i <:+ s := by
    intro s i
    constructor
    · intro h
      rw [bytesContains, Bool.and_eq_true] at h
      have h2 := h.2
      rw [beq_iff_eq] at h2
      exact List.suffix_iff_eq_drop.mpr h2.symm
    · intro h
      rw [bytesContains, Bool.and_eq_true]
      refine ⟨decide_eq_true h.length_le, ?_⟩
      rw [beq_iff_eq]
      exact (List.suffix_iff_eq_drop.mp h).symm
  refine ⟨hmain, ?_, ?_⟩
  · intro a k _ hnsuf
    rw [configureSSHStep, if_neg (fun hh => hnsuf ((hmain a k).mp hh))]
  · intro a k hk
    constructor
    · intro he
      by_contra hns
      rw [configureSSHStep, if_neg (fun hh => hns ((hmain a k).mp hh))] at he
      have hlen := congrArg List.length he
      simp only [List.length_append] at hlen
      exact hk (List.eq_nil_of_length_eq_zero (by omega))
    · intro hs
      rw [configureSSHStep, if_pos ((hmain a k).mpr hs)]

theorem C10_ssh_contains_is_suffix_witness :
    bytesContains ("key\nother\n").data ("key").data = false ∧
    configureSSHStep ("key\nother\n").data ("key").data =
      ("key\nother\n").data ++ ("key").data := by
  constructor
  · decide
  · exact C10_ssh_contains_is_suffix.2.1 ("key\nother\n").data ("key").data
      (by decide) (by decide)

/-! ## Artifact installer (`internal/bootstrap/collections.go`) -/

/-- One directory entry as reported by `os.ReadDir`. -/
structure DirEntry where
  name : String
  isDir : Bool
deriving DecidableEq

/-- Entries the install loop selects: non-directory entries whose name ends
in one of the two recognized archive suffixes. -/
def isArchiveEntry (e : DirEntry) : Bool :=
  !e.isDir && (strEndsWith e.name ".tar.gz" || strEndsWith e.name ".tgz")

/-- Errors of the collection installers; the directory loop names the
failing artifact in its message, the single-file branch does not. -/
inductive InstallErr where
  | dirEntryFailed (name : String)
  | singleFileFailed
deriving DecidableEq

/-- The directory loop of `InstallCollectionsOffline` and
`InstallCollectionsFromTarballs`: one `ansible-galaxy collection install`
invocation per recognized entry, aborting at the first failure. Returns the
artifacts the front-end was invoked on, in order, and the resulting error. -/
def installArchiveEntries (galaxyOk : String → Bool) :
    List DirEntry → List String × Option InstallErr
  | [] => ([], none)
  | e :: rest =>
    if isArchiveEntry e then
      if galaxyOk e.name then
        (e.name :: (installArchiveEntries galaxyOk rest).1,
          (installArchiveEntries galaxyOk rest).2)
      else ([e.name], some (.dirEntryFailed e.name))
    else installArchiveEntries galaxyOk rest

/-- A path handed to the installer: a single file, or a directory listing. -/
inductive PathNode where
  | file (name : String)
  | dir (entries : List DirEntry)

/-- The installers after the `os.Stat` dispatch: a directory runs the
filtered loop; a single file is installed directly by one invocation. -/
def installCollectionsFromPath (node : PathNode) (galaxyOk : String → Bool) :
    List String × Option InstallErr :=
  match node with
  | .file name =>
    if galaxyOk name then ([name], none) else ([name], some .singleFileFailed)
  | .dir entries => installArchiveEntries galaxyOk entries

theorem installArchiveEntries_all_ok (g : String → Bool) :
    ∀ entries : List DirEntry,
      (∀ e ∈ entries, isArchiveEntry e = true → g e.name = true) →
      installArchiveEntries g entries =
        ((entries.filter isArchiveEntry).map DirEntry.name, none) := by
  intro entries
  induction entries with
  | nil => intro _; rfl
  | cons e rest ih =>
    intro h
    have hrest := ih (fun x hx => h x (List.mem_cons_of_mem _ hx))
    cases ha : isArchiveEntry e
    · simp [installArchiveEntries, ha, List.filter_cons, hrest]
    · have hg : g e.name = true := h e (List.mem_cons_self _ _) ha
      simp [installArchiveEntries, ha, hg, List.filter_cons, hrest]

theorem installArchiveEntries_first_failure (g : String → Bool) :
    ∀ (pre : List DirEntry) (e : DirEntry) (post : List DirEntry),
      (∀ x ∈ pre, isArchiveEntry x = true → g x.name = true) →
      isArchiveEntry e = true → g e.name = false →
      installArchiveEntries g (pre ++ e :: post) =
        ((pre.filter isArchiveEntry).map DirEntry.name ++ [e.name],
          some (.dirEntryFailed e.name)) := by
  intro pre
  induction pre with
  | nil =>
    intro e post _ ha hg
    simp [installArchiveEntries, ha, hg]
  | cons x rest ih =>
    intro e post h ha hg
    have hrest := ih e post (fun y hy => h y (List.mem_cons_of_mem _ hy)) ha hg
    cases hax : isArchiveEntry x
    · simp [installArchiveEntries, hax, hrest, List.filter_cons]
    · have hx : g x.name = true := h x (List.mem_cons_self _ _) hax
      simp [installArchiveEntries, hax, hx, hrest, List.filter_cons]

/-- Claim C8: installing from a directory installs exactly the single-level
non-directory entries with a recognized archive suffix (one front-end
invocation each) and ignores everything else; a single file is installed
directly in one invocation; the first failing installation aborts the call,
and the directory loop names the failing artifact. -/
theorem C8_directory_vs_single_file_install :
    (∀ (g : String → Bool) (entries : List DirEntry),
      (∀ e ∈ entries, isArchiveEntry e = true → g e.name = true) →
      installCollectionsFromPath (.dir entries) g =
        ((entries.filter isArchiveEntry).map DirEntry.name, none)) ∧
    (∀ (g : String → Bool) (name : String),
      installCollectionsFromPath (.file name) g =
        ([name], if g name then none else some .singleFileFailed)) ∧
    (∀ (g : String → Bool) (pre : List DirEntry) (e : DirEntry)
        (post : List DirEntry),
      (∀ x ∈ pre, isArchiveEntry x = true → g x.name = true) →
      isArchiveEntry e = true → g e.name = false →
      installCollectionsFromPath (.dir (pre ++ e :: post)) g =
        ((pre.filter isArchiveEntry).map DirEntry.name ++ [e.name],
          some (.dirEntryFailed e.name))) := by
  refine ⟨?_, ?_, ?_⟩
  · intro g entries h
    exact installArchiveEntries_all_ok g entries h
  · intro g name
    cases hg : g name <;> simp [installCollectionsFromPath, hg]
  · intro g pre e post h ha hg
    exact installArchiveEntries_first_failure g pre e post h ha hg

theorem C8_directory_vs_single_file_install_witness :
    installCollectionsFromPath
      (.dir [⟨"a.tar.gz", false⟩, ⟨"notes.txt", false⟩, ⟨"b.tgz", false⟩])
      (fun _ => true) = (["a.tar.gz", "b.tgz"], none) ∧
    installCollectionsFromPath (.file "c.tar.gz") (fun _ => true) =
      (["c.tar.gz"], none) ∧
    installCollectionsFromPath
      (.dir [⟨"a.tar.gz", false⟩, ⟨"notes.txt", false⟩, ⟨"b.tgz", false⟩])
      (fun n => !(n == "b.tgz")) =
      (["a.tar.gz", "b.tgz"], some (.dirEntryFailed "b.tgz")) := by
  refine ⟨?_, ?_, ?_⟩
  · have h := C8_directory_vs_single_file_install.1 (fun _ => true)
      [⟨"a.tar.gz", false⟩, ⟨"notes.txt", false⟩, ⟨"b.tgz", false⟩]
      (fun _ _ _ => rfl)
    rw [h]; decide
  · have h := C8_directory_vs_single_file_install.2.1 (fun _ => true) "c.tar.gz"
    rw [h]; decide
  · exact (C8_directory_vs_single_file_install.2.2 (fun n => !(n == "b.tgz"))
      [⟨"a.tar.gz", false⟩, ⟨"notes.txt", false⟩] ⟨"b.tgz", false⟩ []
      (by decide) (by decide) (by decide)).trans (by decide)

/-! ## Platform capability table (`DependenciePackages`) -/

/-- One row of `DependenciePackages`; `hasHook` records whether the row's
`PostHook` field is non-nil. -/
structure PackageDef where
  osid : String
  version : String
  packages : List String
  hasHook : Bool
deriving DecidableEq

/-- The `DependenciePackages` table, row for row. -/
def DependenciePackages : List PackageDef :=
  [⟨"ubuntu", "24.04",
    ["python3.12", "python3.12-pip", "python3.12-venv", "ssh", "curl", "git"],
    false⟩,
   ⟨"ubuntu", "22.04",
    ["python3.12", "python3.12-pip", "python3.12-venv", "ssh", "curl", "git"],
    false⟩,
   ⟨"ubuntu", "20.04",
    ["build-essential", "zlib1g-dev", "libncurses5-dev", "libgdbm-dev",
     "libnss3-dev", "libssl-dev", "libreadline-dev", "libffi-dev",
     "libsqlite3-dev", "wget", "libbz2-dev", "pkg-config", "ssh", "curl",
     "git"], true⟩,
   ⟨"rhel", "7",
    ["epel-release", "openssh", "centos-release-scl-rh", "centos-release-scl",
     "rh-python38"], false⟩,
   ⟨"rhel", "8",
    ["git", "python39", "python3-pip", "python3-policycoreutils",
     "openssh-clients", "python39-setuptools"], false⟩,
   ⟨"rhel", "9",
    ["git", "python3.12", "python3.12-pip", "python3-policycoreutils",
     "openssh-clients", "python3.12-setuptools"], false⟩,
   ⟨"debian", "11",
    ["python3", "python3-pip", "python3-venv", "git", "ssh", "curl"], false⟩,
   ⟨"debian", "12",
    ["python3.12", "python3.12-pip", "python3.12-venv", "git", "ssh", "curl"],
    false⟩,
   ⟨"opensuse-leap", "15.5",
    ["python3", "python3-pip", "python311", "python311-pip", "git", "openssh",
     "curl"], true⟩,
   ⟨"opensuse-leap", "15.6",
    ["python3", "python3-pip", "python311", "python311-pip", "git", "openssh",
     "curl"], true⟩]

/-- The callers' selection loop: first row matching the resolved identity. -/
def lookupDef (osID version : String) : Option PackageDef :=
  DependenciePackages.find? (fun p => p.osid == osID && p.version == version)

/-- The package list a caller ends up with: empty when no row matched. -/
def lookupPackages (osID version : String) : List String :=
  ((lookupDef osID version).map PackageDef.packages).getD []

/-- Whether the selected row carries a post-install hook. -/
def lookupHasHook (osID version : String) : Bool :=
  ((lookupDef osID version).map PackageDef.hasHook).getD false

/-! ## Account provisioner (`internal/bootstrap/user.go`) -/

/-- External commands `CreateBluebanquiseUser` issues, with their string
arguments. -/
inductive UserStep where
  | getentGroup (name : String)
  | groupadd (gid name : String)
  | getentPasswd (name : String)
  | useradd (uid gid home name : String)
  | writeSudoers (path content : String)
deriving DecidableEq

/-- Outcomes of the external commands: whether `getent` reports the
group/user as existing, and whether each creation/write succeeds. -/
structure UserCmdResults where
  groupExists : Bool
  groupaddOk : Bool
  userExists : Bool
  useraddOk : Bool
  sudoersWriteOk : Bool
deriving DecidableEq

/-- Final step of `CreateBluebanquiseUser`: unconditional sudoers write. -/
def createUserSudoers (pre : List UserStep) (userName : String)
    (r : UserCmdResults) : List UserStep × Bool :=
  (pre ++ [UserStep.writeSudoers ("/etc/sudoers.d/" ++ userName)
      (userName ++ " ALL=(ALL:ALL) NOPASSWD:ALL\n")], r.sudoersWriteOk)

/-- `CreateBluebanquiseUser` after the group phase: user existence check,
conditional `useradd`, then the sudoers write. -/
def createUserAfterGroup (pre : List UserStep) (userName userHome : String)
    (r : UserCmdResults) : List UserStep × Bool :=
  if r.userExists then
    createUserSudoers (pre ++ [UserStep.getentPasswd userName]) userName r
  else if !r.useraddOk then
    (pre ++ [UserStep.getentPasswd userName,
      UserStep.useradd "377" "377" userHome userName], false)
  else
    createUserSudoers
      (pre ++ [UserStep.getentPasswd userName,
        UserStep.useradd "377" "377" userHome userName]) userName r

/-- `CreateBluebanquiseUser`, as the sequence of external commands it runs
and whether it returns nil. Note that the function performs no validation of
its arguments before the first `getent` call. -/
def createBluebanquiseUser (userName userHome : String) (r : UserCmdResults) :
    List UserStep × Bool :=
  if r.groupExists then
    createUserAfterGroup [UserStep.getentGroup userName] userName userHome r
  else if !r.groupaddOk then
    ([UserStep.getentGroup userName, UserStep.groupadd "377" userName], false)
  else
    createUserAfterGroup
      [UserStep.getentGroup userName, UserStep.groupadd "377" userName]
      userName userHome r

/-- The command kind of a `UserStep`, forgetting its arguments. -/
inductive UserStepKind where
  | kGetentGroup | kGroupadd | kGetentPasswd | kUseradd | kWriteSudoers
deriving DecidableEq

def userStepKind : UserStep → UserStepKind
  | .getentGroup _ => .kGetentGroup
  | .groupadd _ _ => .kGroupadd
  | .getentPasswd _ => .kGetentPasswd
  | .useradd _ _ _ _ => .kUseradd
  | .writeSudoers _ _ => .kWriteSudoers

/-- Claim C6 is false on the code: with an empty account name the
provisioner does not fail with an invalid-argument error but runs every
command (and succeeds when the external tools do), and with an empty home
directory the group is created before `useradd` fails. -/
theorem C6_account_provisioner_counterexample :
    (createBluebanquiseUser "" "/tmp/testhome" ⟨false, true, false, true, true⟩ =
      ([UserStep.getentGroup "", UserStep.groupadd "377" "",
        UserStep.getentPasswd "",
        UserStep.useradd "377" "377" "/tmp/testhome" "",
        UserStep.writeSudoers "/etc/sudoers.d/" " ALL=(ALL:ALL) NOPASSWD:ALL\n"],
        true)) ∧
    (createBluebanquiseUser "testuser" "" ⟨false, true, false, false, true⟩ =
      ([UserStep.getentGroup "testuser", UserStep.groupadd "377" "testuser",
        UserStep.getentPasswd "testuser",
        UserStep.useradd "377" "377" "" "testuser"], false)) := by
  constructor <;> decide

/-- Claim C6 (amended): the account provisioner performs no emptiness
validation — for every name/home pair, empty or not, it proceeds directly to
the idempotent group existence check, and the command sequence it attempts
(and its success) depend only on the external command outcomes, never on
the argument values; an existing group suppresses `groupadd`. -/
theorem C6_account_provisioner_amended (n₁ h₁ n₂ h₂ : String)
    (r : UserCmdResults) :
    (createBluebanquiseUser n₁ h₁ r).1.map userStepKind =
      (createBluebanquiseUser n₂ h₂ r).1.map userStepKind ∧
    (createBluebanquiseUser n₁ h₁ r).2 = (createBluebanquiseUser n₂ h₂ r).2 ∧
    (createBluebanquiseUser n₁ h₁ r).1.head? = some (UserStep.getentGroup n₁) ∧
    (r.groupExists = true →
      UserStepKind.kGroupadd ∉
        (createBluebanquiseUser n₁ h₁ r).1.map userStepKind) := by
  cases r with
  | mk ge ga ue ua so =>
    cases ge <;> cases ga <;> cases ue <;> cases ua <;> cases so <;>
      simp [createBluebanquiseUser, createUserAfterGroup, createUserSudoers,
        userStepKind]

theorem C6_account_provisioner_amended_witness :
    (createBluebanquiseUser "" "" ⟨true, true, true, true, true⟩).1.map
        userStepKind =
      (createBluebanquiseUser "bluebanquise" "/var/lib/bluebanquise"
        ⟨true, true, true, true, true⟩).1.map userStepKind ∧
    UserStepKind.kGroupadd ∉
      (createBluebanquiseUser "" "" ⟨true, true, true, true, true⟩).1.map
        userStepKind := by
  exact ⟨(C6_account_provisioner_amended "" "" "bluebanquise"
      "/var/lib/bluebanquise" ⟨true, true, true, true, true⟩).1,
    (C6_account_provisioner_amended "" "" "x" "/h"
      ⟨true, true, true, true, true⟩).2.2.2 rfl⟩

/-! ## Requirements downloader (`DownloadRequirements`, utils/python.go) -/

/-- Steps `DownloadRequirements` performs, in order. -/
inductive DlStep where
  | mkdirDownload
  | writeManifest (content : String)
  | getPython
  | pipDownload
  | readDownloadDir
deriving DecidableEq

/-- The error cases of `DownloadRequirements`. -/
inductive DlError where
  | noRequirements
  | mkdirFailed
  | writeFailed
  | pythonCmdFailed
  | pipFailed
  | readDirFailed
  | noPackagesInstalled
deriving DecidableEq

/-- Outcomes of the external operations plus the final directory listing. -/
structure DlEnv where
  mkdirOk : Bool
  writeOk : Bool
  pythonOk : Bool
  pipOk : Bool
  readDirOk : Bool
  entries : List DirEntry

/-- The verification filter: non-directory entries whose name ends in
`.whl`, `.tar.gz` or `.tgz`. -/
def isPythonPackageEntry (e : DirEntry) : Bool :=
  !e.isDir && (strEndsWith e.name ".whl" || strEndsWith e.name ".tar.gz" ||
    strEndsWith e.name ".tgz")

/-- `DownloadRequirements(requirements, downloadPath)`: create the target
directory, write the newline-joined manifest, resolve the interpreter, run
`pip download` against the manifest, then re-read the directory and fail
when no recognized package archive is present. -/
def downloadRequirements (requirements : List String) (env : DlEnv) :
    List DlStep × Option DlError :=
  if requirements.isEmpty then ([], some .noRequirements)
  else if !env.mkdirOk then ([.mkdirDownload], some .mkdirFailed)
  else if !env.writeOk then
    ([.mkdirDownload, .writeManifest (String.intercalate "\n" requirements)],
      some .writeFailed)
  else if !env.pythonOk then
    ([.mkdirDownload, .writeManifest (String.intercalate "\n" requirements),
      .getPython], some .pythonCmdFailed)
  else if !env.pipOk then
    ([.mkdirDownload, .writeManifest (String.intercalate "\n" requirements),
      .getPython, .pipDownload], some .pipFailed)
  else if !env.readDirOk then
    ([.mkdirDownload, .writeManifest (String.intercalate "\n" requirements),
      .getPython, .pipDownload, .readDownloadDir], some .readDirFailed)
  else if env.entries.countP isPythonPackageEntry = 0 then
    ([.mkdirDownload, .writeManifest (String.intercalate "\n" requirements),
      .getPython, .pipDownload, .readDownloadDir], some .noPackagesInstalled)
  else
    ([.mkdirDownload, .writeManifest (String.intercalate "\n" requirements),
      .getPython, .pipDownload, .readDownloadDir], none)

/-- Claim C5: the downloader writes the newline-joined manifest into the
target path and invokes the package front-end against it; when the
front-end succeeds but zero files with a recognized archive suffix are
present in the target directory afterwards, it fails with the
no-packages-installed error; with at least one such file it succeeds. -/
theorem C5_no_packages_installed_check (requirements : List String)
    (env : DlEnv) (hreq : requirements ≠ []) (hmk : env.mkdirOk = true)
    (hw : env.writeOk = true) (hpy : env.pythonOk = true)
    (hpip : env.pipOk = true) (hrd : env.readDirOk = true) :
    DlStep.writeManifest (String.intercalate "\n" requirements) ∈
      (downloadRequirements requirements env).1 ∧
    DlStep.pipDownload ∈ (downloadRequirements requirements env).1 ∧
    (env.entries.countP isPythonPackageEntry = 0 →
      (downloadRequirements requirements env).2 = some .noPackagesInstalled) ∧
    (env.entries.countP isPythonPackageEntry ≠ 0 →
      (downloadRequirements requirements env).2 = none) := by
  have hre : requirements.isEmpty = false := by
    cases h : requirements
    · exact absurd h hreq
    · rfl
  by_cases hc : env.entries.countP isPythonPackageEntry = 0
  · simp [downloadRequirements, hre, hmk, hw, hpy, hpip, hrd, hc]
  · simp [downloadRequirements, hre, hmk, hw, hpy, hpip, hrd, hc]

theorem C5_no_packages_installed_check_witness :
    (downloadRequirements ["ansible", "jinja2"]
      ⟨true, true, true, true, true, [⟨"requirements.txt", false⟩]⟩).2 =
      some DlError.noPackagesInstalled := by
  exact (C5_no_packages_installed_check ["ansible", "jinja2"]
    ⟨true, true, true, true, true, [⟨"requirements.txt", false⟩]⟩
    (by decide) rfl rfl rfl rfl rfl).2.2.1 (by decide)

/-! ## Command drivers (`cmd/online.go`, `cmd/offline.go`,
`bootstrap.ConfigureEnvironment`)

Each driver is modelled as the ordered trace of the stages it attempts
together with its overall success; the outcome of every external stage is an
input. A stage appears in the trace exactly when the driver invokes it. -/

/-- The stages a driver can attempt. -/
inductive Step where
  | sysCheck | detectOS | installPackages | postHook | createUser
  | configureEnv | installCollections | installCoreVars
  | validateTarball | validateCollections | validateRequirements
  | validateCoreVars
  | exportRHPython | createVenv | installRequirements
  | updateBashrc | updateSudoers | configureSSH | mkdirBB
deriving DecidableEq

/-- Stage outcomes for the `online` command. -/
structure OnlineEnv where
  sysOk : Bool
  detect : Option (String × String)
  installOk : Bool
  hookOk : Bool
  userOk : Bool
  envOk : Bool
  collectionsOk : Bool
  coreVarsOk : Bool

/-- The `online` command after a successful package phase: user creation,
optional environment configuration, collections, core variables. -/
def onlineTail (pre : List Step) (skipEnv : Bool) (e : OnlineEnv) :
    List Step × Bool :=
  if !e.userOk then (pre ++ [.createUser], false)
  else if skipEnv then
    if !e.collectionsOk then (pre ++ [.createUser, .installCollections], false)
    else if !e.coreVarsOk then
      (pre ++ [.createUser, .installCollections, .installCoreVars], false)
    else (pre ++ [.createUser, .installCollections, .installCoreVars], true)
  else
    if !e.envOk then (pre ++ [.createUser, .configureEnv], false)
    else if !e.collectionsOk then
      (pre ++ [.createUser, .configureEnv, .installCollections], false)
    else if !e.coreVarsOk then
      (pre ++ [.createUser, .configureEnv, .installCollections,
        .installCoreVars], false)
    else (pre ++ [.createUser, .configureEnv, .installCollections,
      .installCoreVars], true)

/-- The `Run` body of the `online` command (`cmd/online.go`): system check,
OS detection, table lookup with its emptiness gate, package installation,
conditional post-install hook, then the tail sequence. -/
def onlineRun (skipEnv : Bool) (e : OnlineEnv) : List Step × Bool :=
  if !e.sysOk then ([.sysCheck], false)
  else
    match e.detect with
    | none => ([.sysCheck, .detectOS], false)
    | some (osID, version) =>
      if (lookupPackages osID version).isEmpty then
        ([.sysCheck, .detectOS], false)
      else if !e.installOk then
        ([.sysCheck, .detectOS, .installPackages], false)
      else if lookupHasHook osID version then
        if !e.hookOk then
          ([.sysCheck, .detectOS, .installPackages, .postHook], false)
        else onlineTail [.sysCheck, .detectOS, .installPackages, .postHook]
          skipEnv e
      else onlineTail [.sysCheck, .detectOS, .installPackages] skipEnv e

theorem onlineTail_shape (pre : List Step) (skipEnv : Bool) (e : OnlineEnv) :
    ∃ rest, (onlineTail pre skipEnv e).1 = pre ++ Step.createUser :: rest := by
  cases hu : e.userOk <;> cases hs : skipEnv <;> cases hv : e.envOk <;>
    cases hc : e.collectionsOk <;> cases hcv : e.coreVarsOk <;>
      simp only [onlineTail, hu, hv, hc, hcv, Bool.not_true, Bool.not_false,
        if_true, if_false] <;> exact ⟨_, rfl⟩

/-- Claim C7: when the selected table row has a post-install hook, the
`online` command never invokes the hook before package installation has
succeeded, never starts account provisioning (hence never environment
provisioning) before the hook has completed successfully, and a hook
failure aborts the run before any account or environment step. -/
theorem C7_post_hook_ordering (fam ver : String) (entry : PackageDef)
    (hfind : lookupDef fam ver = some entry) (hhook : entry.hasHook = true)
    (hpkgs : entry.packages ≠ []) (skipEnv : Bool) (e : OnlineEnv)
    (hdet : e.detect = some (fam, ver)) (hsys : e.sysOk = true) :
    (Step.postHook ∈ (onlineRun skipEnv e).1 →
      e.installOk = true ∧
      ∃ rest, (onlineRun skipEnv e).1 =
        [Step.sysCheck, Step.detectOS, Step.installPackages,
          Step.postHook] ++ rest) ∧
    (Step.createUser ∈ (onlineRun skipEnv e).1 →
      e.hookOk = true ∧
      ∃ rest, (onlineRun skipEnv e).1 =
        [Step.sysCheck, Step.detectOS, Step.installPackages, Step.postHook,
          Step.createUser] ++ rest) ∧
    (e.hookOk = false →
      Step.createUser ∉ (onlineRun skipEnv e).1 ∧
      Step.configureEnv ∉ (onlineRun skipEnv e).1 ∧
      (onlineRun skipEnv e).2 = false) := by
  have hpe : (lookupPackages fam ver).isEmpty = false := by
    rw [lookupPackages, hfind]
    show entry.packages.isEmpty = false
    cases hp : entry.packages
    · exact absurd hp hpkgs
    · rfl
  have hhk : lookupHasHook fam ver = true := by
    rw [lookupHasHook, hfind]
    exact hhook
  cases hio : e.installOk
  · have hrun : onlineRun skipEnv e =
        ([.sysCheck, .detectOS, .installPackages], false) := by
      simp [onlineRun, hdet, hsys, hpe, hio]
    rw [hrun]
    refine ⟨?_, ?_, ?_⟩
    · intro h
      exact absurd h (by decide)
    · intro h
      exact absurd h (by decide)
    · intro _
      exact ⟨by decide, by decide, rfl⟩
  · cases hho : e.hookOk
    · have hrun : onlineRun skipEnv e =
          ([.sysCheck, .detectOS, .installPackages, .postHook], false) := by
        simp [onlineRun, hdet, hsys, hpe, hio, hhk, hho]
      rw [hrun]
      refine ⟨?_, ?_, ?_⟩
      · intro _
        exact ⟨rfl, [], rfl⟩
      · intro h
        exact absurd h (by decide)
      · intro _
        exact ⟨by decide, by decide, rfl⟩
    · have hrun : onlineRun skipEnv e =
          onlineTail [.sysCheck, .detectOS, .installPackages, .postHook]
            skipEnv e := by
        simp [onlineRun, hdet, hsys, hpe, hio, hhk, hho]
      obtain ⟨rest, hshape⟩ := onlineTail_shape
        [.sysCheck, .detectOS, .installPackages, .postHook] skipEnv e
      refine ⟨?_, ?_, ?_⟩
      · intro _
        refine ⟨rfl, Step.createUser :: rest, ?_⟩
        rw [hrun, hshape]
      · intro _
        refine ⟨rfl, rest, ?_⟩
        rw [hrun, hshape]
        rfl
      · intro h
        exact absurd h (by decide)

theorem C7_post_hook_ordering_witness :
    ∃ rest, (onlineRun false
      ⟨true, some ("ubuntu", "20.04"), true, true, true, true, true,
        true⟩).1 =
      [Step.sysCheck, Step.detectOS, Step.installPackages, Step.postHook,
        Step.createUser] ++ rest := by
  have h := C7_post_hook_ordering "ubuntu" "20.04"
    ⟨"ubuntu", "20.04",
      ["build-essential", "zlib1g-dev", "libncurses5-dev", "libgdbm-dev",
       "libnss3-dev", "libssl-dev", "libreadline-dev", "libffi-dev",
       "libsqlite3-dev", "wget", "libbz2-dev", "pkg-config", "ssh", "curl",
       "git"], true⟩
    (by decide) rfl (by decide) false
    ⟨true, some ("ubuntu", "20.04"), true, true, true, true, true, true⟩
    rfl rfl
  exact (h.2.1 (by decide)).2

/-- Stage outcomes for the `offline` command. -/
structure OfflineEnv where
  sysOk : Bool
  tarballCheckOk : Bool
  collectionsCheckOk : Bool
  requirementsCheckOk : Bool
  coreVarsStatOk : Bool
  detect : Option (String × String)
  installOk : Bool
  userOk : Bool
  envOk : Bool
  collectionsInstallOk : Bool
  coreVarsInstallOk : Bool

/-- Final phase of the `offline` command: collections, optional core
variables. -/
def offlineCollections (pre : List Step) (cvp : String) (e : OfflineEnv) :
    List Step × Bool :=
  if !e.collectionsInstallOk then (pre ++ [.installCollections], false)
  else if cvp ≠ "" then
    if !e.coreVarsInstallOk then
      (pre ++ [.installCollections, .installCoreVars], false)
    else (pre ++ [.installCollections, .installCoreVars], true)
  else (pre ++ [.installCollections], true)

/-- The optional environment phase of the `offline` command. -/
def offlineEnvPhase (pre : List Step) (cvp : String) (skipEnv : Bool)
    (e : OfflineEnv) : List Step × Bool :=
  if skipEnv then offlineCollections pre cvp e
  else if !e.envOk then (pre ++ [.configureEnv], false)
  else offlineCollections (pre ++ [.configureEnv]) cvp e

/-- The `offline` command from OS detection onwards: detection, table
lookup with its emptiness gate, package installation, user creation, then
the environment and installation phases. -/
def offlineAfterValidation (pre : List Step) (cvp : String) (skipEnv : Bool)
    (e : OfflineEnv) : List Step × Bool :=
  match e.detect with
  | none => (pre ++ [.detectOS], false)
  | some (osID, version) =>
    if (lookupPackages osID version).isEmpty then (pre ++ [.detectOS], false)
    else if !e.installOk then (pre ++ [.detectOS, .installPackages], false)
    else if !e.userOk then
      (pre ++ [.detectOS, .installPackages, .createUser], false)
    else offlineEnvPhase (pre ++ [.detectOS, .installPackages, .createUser])
      cvp skipEnv e

/-- Optional core-variables path validation of the `offline` command. -/
def offlineCoreVarsValidation (pre : List Step) (cvp : String)
    (skipEnv : Bool) (e : OfflineEnv) : List Step × Bool :=
  if cvp ≠ "" then
    if !e.coreVarsStatOk then (pre ++ [.validateCoreVars], false)
    else offlineAfterValidation (pre ++ [.validateCoreVars]) cvp skipEnv e
  else offlineAfterValidation pre cvp skipEnv e

/-- Optional requirements path validation of the `offline` command. -/
def offlineOptionalValidations (pre : List Step) (rp cvp : String)
    (skipEnv : Bool) (e : OfflineEnv) : List Step × Bool :=
  if rp ≠ "" then
    if !e.requirementsCheckOk then (pre ++ [.validateRequirements], false)
    else offlineCoreVarsValidation (pre ++ [.validateRequirements]) cvp
      skipEnv e
  else offlineCoreVarsValidation pre cvp skipEnv e

/-- The `Run` body of the `offline` command (`cmd/offline.go`): the two
path flags are validated for presence and mutual exclusivity before
anything else runs; then system check, input path validation, and the
common installation sequence. -/
def offlineRun (cp tp rp cvp : String) (skipEnv : Bool) (e : OfflineEnv) :
    List Step × Bool :=
  if cp = "" ∧ tp = "" then ([], false)
  else if cp ≠ "" ∧ tp ≠ "" then ([], false)
  else if !e.sysOk then ([.sysCheck], false)
  else if tp ≠ "" then
    if !e.tarballCheckOk then ([.sysCheck, .validateTarball], false)
    else offlineOptionalValidations [.sysCheck, .validateTarball] rp cvp
      skipEnv e
  else
    if !e.collectionsCheckOk then ([.sysCheck, .validateCollections], false)
    else offlineOptionalValidations [.sysCheck, .validateCollections] rp cvp
      skipEnv e

/-- Stage outcomes for `bootstrap.ConfigureEnvironment`. -/
structure EnvBuildEnv where
  detect : Option (String × String)
  exportOk : Bool
  installOk : Bool
  venvOk : Bool
  reqOk : Bool
  bashrcOk : Bool
  sudoersOk : Bool
  sshOk : Bool
  mkdirOk : Bool

/-- `ConfigureEnvironment` after package installation: venv creation,
runtime requirements, `.bashrc` lines, sudoers line, SSH, directory. -/
def configureEnvironmentTail (pre : List Step) (e : EnvBuildEnv) :
    List Step × Bool :=
  if !e.venvOk then (pre ++ [.createVenv], false)
  else if !e.reqOk then (pre ++ [.createVenv, .installRequirements], false)
  else if !e.bashrcOk then
    (pre ++ [.createVenv, .installRequirements, .updateBashrc], false)
  else if !e.sudoersOk then
    (pre ++ [.createVenv, .installRequirements, .updateBashrc,
      .updateSudoers], false)
  else if !e.sshOk then
    (pre ++ [.createVenv, .installRequirements, .updateBashrc, .updateSudoers,
      .configureSSH], false)
  else if !e.mkdirOk then
    (pre ++ [.createVenv, .installRequirements, .updateBashrc, .updateSudoers,
      .configureSSH, .mkdirBB], false)
  else
    (pre ++ [.createVenv, .installRequirements, .updateBashrc, .updateSudoers,
      .configureSSH, .mkdirBB], true)

/-- The table gate of `ConfigureEnvironment`: lookup, emptiness check,
package installation, then the tail. -/
def configureEnvironmentGate (pre : List Step) (osID version : String)
    (e : EnvBuildEnv) : List Step × Bool :=
  if (lookupPackages osID version).isEmpty then (pre, false)
  else if !e.installOk then (pre ++ [.installPackages], false)
  else configureEnvironmentTail (pre ++ [.installPackages]) e

/-- `bootstrap.ConfigureEnvironment`: OS detection, RHEL7-specific export,
a second detection, then the gate and the tail. -/
def configureEnvironment (e : EnvBuildEnv) : List Step × Bool :=
  match e.detect with
  | none => ([.detectOS], false)
  | some (osID, version) =>
    if osID = "rhel" ∧ version = "7" then
      if !e.exportOk then ([.detectOS, .exportRHPython], false)
      else configureEnvironmentGate [.detectOS, .exportRHPython, .detectOS]
        osID version e
    else configureEnvironmentGate [.detectOS, .detectOS] osID version e

/-! ### Unsupported-platform lemmas for claim C4 -/

theorem offlineAfterValidation_unsupported (fam ver : String)
    (hempty : (lookupPackages fam ver).isEmpty = true) (pre : List Step)
    (cvp : String) (skipEnv : Bool) (e : OfflineEnv)
    (hdet : e.detect = some (fam, ver))
    (hpre : Step.installPackages ∉ pre) :
    (offlineAfterValidation pre cvp skipEnv e).2 = false ∧
    Step.installPackages ∉ (offlineAfterValidation pre cvp skipEnv e).1 := by
  rw [offlineAfterValidation, hdet]
  simp [hempty, hpre]

theorem offlineCoreVarsValidation_unsupported (fam ver : String)
    (hempty : (lookupPackages fam ver).isEmpty = true) (pre : List Step)
    (cvp : String) (skipEnv : Bool) (e : OfflineEnv)
    (hdet : e.detect = some (fam, ver))
    (hpre : Step.installPackages ∉ pre) :
    (offlineCoreVarsValidation pre cvp skipEnv e).2 = false ∧
    Step.installPackages ∉ (offlineCoreVarsValidation pre cvp skipEnv e).1 := by
  by_cases hcvp : cvp = ""
  · rw [offlineCoreVarsValidation, if_neg (by simp [hcvp])]
    exact offlineAfterValidation_unsupported fam ver hempty pre cvp skipEnv e
      hdet hpre
  · rw [offlineCoreVarsValidation, if_pos hcvp]
    cases hcv : e.coreVarsStatOk
    · simp [hpre]
    · simp only [Bool.not_true, if_false, Bool.false_eq_true]
      exact offlineAfterValidation_unsupported fam ver hempty
        (pre ++ [.validateCoreVars]) cvp skipEnv e hdet (by simp [hpre])

theorem offlineOptionalValidations_unsupported (fam ver : String)
    (hempty : (lookupPackages fam ver).isEmpty = true) (pre : List Step)
    (rp cvp : String) (skipEnv : Bool) (e : OfflineEnv)
    (hdet : e.detect = some (fam, ver))
    (hpre : Step.installPackages ∉ pre) :
    (offlineOptionalValidations pre rp cvp skipEnv e).2 = false ∧
    Step.installPackages ∉
      (offlineOptionalValidations pre rp cvp skipEnv e).1 := by
  by_cases hrp : rp = ""
  · rw [offlineOptionalValidations, if_neg (by simp [hrp])]
    exact offlineCoreVarsValidation_unsupported fam ver hempty pre cvp skipEnv
      e hdet hpre
  · rw [offlineOptionalValidations, if_pos hrp]
    cases hrc : e.requirementsCheckOk
    · simp [hpre]
    · simp only [Bool.not_true, if_false, Bool.false_eq_true]
      exact offlineCoreVarsValidation_unsupported fam ver hempty
        (pre ++ [.validateRequirements]) cvp skipEnv e hdet (by simp [hpre])

/-- Claim C4: a resolved `(family, version)` pair with no row in
`DependenciePackages` yields the empty package list, and each caller —
`online`, `offline`, and the environment builder — fails the run without
ever invoking package installation. -/
theorem C4_unsupported_platform_is_fatal (fam ver : String)
    (habs : ∀ d ∈ DependenciePackages, ¬(d.osid = fam ∧ d.version = ver)) :
    lookupPackages fam ver = [] ∧
    (∀ (skipEnv : Bool) (e : OnlineEnv), e.detect = some (fam, ver) →
      (onlineRun skipEnv e).2 = false ∧
      Step.installPackages ∉ (onlineRun skipEnv e).1) ∧
    (∀ (cp tp rp cvp : String) (skipEnv : Bool) (e : OfflineEnv),
      e.detect = some (fam, ver) →
      (offlineRun cp tp rp cvp skipEnv e).2 = false ∧
      Step.installPackages ∉ (offlineRun cp tp rp cvp skipEnv e).1) ∧
    (∀ e : EnvBuildEnv, e.detect = some (fam, ver) →
      (configureEnvironment e).2 = false ∧
      Step.installPackages ∉ (configureEnvironment e).1) := by
  have hnone : lookupDef fam ver = none := by
    rw [lookupDef, List.find?_eq_none]
    intro d hd
    have := habs d hd
    simp only [Bool.and_eq_true, beq_iff_eq, not_and]
    intro h1 h2
    exact this ⟨h1, h2⟩
  have hlp : lookupPackages fam ver = [] := by
    rw [lookupPackages, hnone]
    rfl
  have hempty : (lookupPackages fam ver).isEmpty = true := by
    rw [hlp]
    rfl
  refine ⟨hlp, ?_, ?_, ?_⟩
  · intro skipEnv e hdet
    cases hs : e.sysOk
    · simp [onlineRun, hs]
    · rw [onlineRun]
      simp [hs, hdet, hempty]
  · intro cp tp rp cvp skipEnv e hdet
    by_cases h1 : cp = "" ∧ tp = ""
    · rw [offlineRun, if_pos h1]
      simp
    · rw [offlineRun, if_neg h1]
      by_cases h2 : cp ≠ "" ∧ tp ≠ ""
      · rw [if_pos h2]
        simp
      · rw [if_neg h2]
        cases hs : e.sysOk
        · simp
        · simp only [Bool.not_true, if_false, Bool.false_eq_true]
          by_cases htp : tp ≠ ""
          · rw [if_pos htp]
            cases htc : e.tarballCheckOk
            · simp
            · simp only [Bool.not_true, if_false, Bool.false_eq_true]
              exact offlineOptionalValidations_unsupported fam ver hempty
                [.sysCheck, .validateTarball] rp cvp skipEnv e hdet (by decide)
          · rw [if_neg htp]
            cases hcc : e.collectionsCheckOk
            · simp
            · simp only [Bool.not_true, if_false, Bool.false_eq_true]
              exact offlineOptionalValidations_unsupported fam ver hempty
                [.sysCheck, .validateCollections] rp cvp skipEnv e hdet
                (by decide)
  · intro e hdet
    have hce : configureEnvironment e =
        (if fam = "rhel" ∧ ver = "7" then
          if !e.exportOk then ([.detectOS, .exportRHPython], false)
          else configureEnvironmentGate [.detectOS, .exportRHPython, .detectOS]
            fam ver e
        else configureEnvironmentGate [.detectOS, .detectOS] fam ver e) := by
      rw [configureEnvironment, hdet]
    rw [hce]
    by_cases hr : fam = "rhel" ∧ ver = "7"
    · rw [if_pos hr]
      cases hex : e.exportOk
      · simp
      · simp only [Bool.not_true, if_false, Bool.false_eq_true]
        rw [configureEnvironmentGate, if_pos hempty]
        exact ⟨rfl, by decide⟩
    · rw [if_neg hr, configureEnvironmentGate, if_pos hempty]
      exact ⟨rfl, by decide⟩

theorem C4_unsupported_platform_is_fatal_witness :
    lookupPackages "windows" "11" = [] ∧
    (onlineRun false ⟨true, some ("windows", "11"), true, true, true, true,
      true, true⟩).2 = false ∧
    Step.installPackages ∉ (onlineRun false ⟨true, some ("windows", "11"),
      true, true, true, true, true, true⟩).1 := by
  have h := C4_unsupported_platform_is_fatal "windows" "11" (by decide)
  have h2 := h.2.1 false
    ⟨true, some ("windows", "11"), true, true, true, true, true, true⟩ rfl
  exact ⟨h.1, h2.1, h2.2⟩

/-! ### Trace-prefix lemmas for claim C9 -/

theorem offlineCollections_prefix (pre : List Step) (cvp : String)
    (e : OfflineEnv) :
    ∃ rest, (offlineCollections pre cvp e).1 = pre ++ rest := by
  by_cases hcvp : cvp = "" <;> cases hc : e.collectionsInstallOk <;>
    cases hcv : e.coreVarsInstallOk <;>
      simp only [offlineCollections, hcvp, hc, hcv, Bool.not_true,
        Bool.not_false, if_true, if_false, ne_eq, not_true_eq_false,
        not_false_eq_true] <;>
    exact ⟨_, rfl⟩

theorem offlineEnvPhase_prefix (pre : List Step) (cvp : String)
    (skipEnv : Bool) (e : OfflineEnv) :
    ∃ rest, (offlineEnvPhase pre cvp skipEnv e).1 = pre ++ rest := by
  cases hs : skipEnv
  · cases hv : e.envOk
    · exact ⟨[.configureEnv], by simp [offlineEnvPhase, hv]⟩
    · obtain ⟨r, hr⟩ := offlineCollections_prefix (pre ++ [.configureEnv]) cvp e
      refine ⟨[.configureEnv] ++ r, ?_⟩
      simp only [offlineEnvPhase, hv, Bool.not_true, if_false,
        Bool.false_eq_true, Bool.not_false, if_true]
      rw [hr, List.append_assoc]
  · obtain ⟨r, hr⟩ := offlineCollections_prefix pre cvp e
    exact ⟨r, by simp only [offlineEnvPhase, if_true]; exact hr⟩

theorem offlineAfterValidation_prefix (pre : List Step) (cvp : String)
    (skipEnv : Bool) (e : OfflineEnv) :
    ∃ rest, (offlineAfterValidation pre cvp skipEnv e).1 = pre ++ rest := by
  cases hd : e.detect with
  | none => exact ⟨[.detectOS], by rw [offlineAfterValidation, hd]⟩
  | some p =>
    obtain ⟨osID, version⟩ := p
    rw [offlineAfterValidation, hd]
    cases hpk : (lookupPackages osID version).isEmpty
    · cases hio : e.installOk
      · exact ⟨[.detectOS, .installPackages], by simp [hpk, hio]⟩
      · cases hu : e.userOk
        · exact ⟨[.detectOS, .installPackages, .createUser],
            by simp [hpk, hio, hu]⟩
        · obtain ⟨r, hr⟩ := offlineEnvPhase_prefix
            (pre ++ [.detectOS, .installPackages, .createUser]) cvp skipEnv e
          refine ⟨[.detectOS, .installPackages, .createUser] ++ r, ?_⟩
          simp only [hpk, hio, hu, Bool.not_true, if_false, Bool.false_eq_true,
            Bool.not_false, if_true]
          rw [hr, List.append_assoc]
    · exact ⟨[.detectOS], by simp [hpk]⟩

theorem offlineCoreVarsValidation_prefix (pre : List Step) (cvp : String)
    (skipEnv : Bool) (e : OfflineEnv) :
    ∃ rest, (offlineCoreVarsValidation pre cvp skipEnv e).1 = pre ++ rest := by
  by_cases hcvp : cvp = ""
  · obtain ⟨r, hr⟩ := offlineAfterValidation_prefix pre cvp skipEnv e
    exact ⟨r, by rw [offlineCoreVarsValidation, if_neg (by simp [hcvp])]; exact hr⟩
  · rw [offlineCoreVarsValidation, if_pos hcvp]
    cases hcv : e.coreVarsStatOk
    · exact ⟨[.validateCoreVars], by simp⟩
    · obtain ⟨r, hr⟩ := offlineAfterValidation_prefix
        (pre ++ [.validateCoreVars]) cvp skipEnv e
      refine ⟨[.validateCoreVars] ++ r, ?_⟩
      simp only [Bool.not_true, if_false, Bool.false_eq_true]
      rw [hr, List.append_assoc]

theorem offlineOptionalValidations_prefix (pre : List Step) (rp cvp : String)
    (skipEnv : Bool) (e : OfflineEnv) :
    ∃ rest, (offlineOptionalValidations pre rp cvp skipEnv e).1 =
      pre ++ rest := by
  by_cases hrp : rp = ""
  · obtain ⟨r, hr⟩ := offlineCoreVarsValidation_prefix pre cvp skipEnv e
    exact ⟨r, by rw [offlineOptionalValidations, if_neg (by simp [hrp])]; exact hr⟩
  · rw [offlineOptionalValidations, if_pos hrp]
    cases hrc : e.requirementsCheckOk
    · exact ⟨[.validateRequirements], by simp⟩
    · obtain ⟨r, hr⟩ := offlineCoreVarsValidation_prefix
        (pre ++ [.validateRequirements]) cvp skipEnv e
      refine ⟨[.validateRequirements] ++ r, ?_⟩
      simp only [Bool.not_true, if_false, Bool.false_eq_true]
      rw [hr, List.append_assoc]

/-- Claim C9: the offline flow rejects the combination of both path flags,
and the absence of both, before any step at all runs (in particular before
OS detection and before any mutating stage); with exactly one of the two
flags present the flow proceeds into the stage sequence. -/
theorem C9_offline_flag_mutual_exclusivity (cp tp rp cvp : String)
    (skipEnv : Bool) (e : OfflineEnv) :
    (cp = "" → tp = "" →
      offlineRun cp tp rp cvp skipEnv e = ([], false)) ∧
    (cp ≠ "" → tp ≠ "" →
      offlineRun cp tp rp cvp skipEnv e = ([], false)) ∧
    (cp ≠ "" → tp = "" →
      (offlineRun cp tp rp cvp skipEnv e).1.head? = some Step.sysCheck) ∧
    (cp = "" → tp ≠ "" →
      (offlineRun cp tp rp cvp skipEnv e).1.head? = some Step.sysCheck) := by
  refine ⟨?_, ?_, ?_, ?_⟩
  · intro h1 h2
    rw [offlineRun, if_pos ⟨h1, h2⟩]
  · intro h1 h2
    rw [offlineRun, if_neg (by simp [h1]), if_pos ⟨h1, h2⟩]
  · intro h1 h2
    rw [offlineRun, if_neg (by simp [h1]), if_neg (by simp [h2])]
    cases hs : e.sysOk
    · simp
    · simp only [Bool.not_true, if_false, Bool.false_eq_true]
      rw [if_neg (by simp [h2])]
      cases hcc : e.collectionsCheckOk
      · simp
      · simp only [Bool.not_true, if_false, Bool.false_eq_true]
        obtain ⟨r, hr⟩ := offlineOptionalValidations_prefix
          [.sysCheck, .validateCollections] rp cvp skipEnv e
        rw [hr]
        rfl
  · intro h1 h2
    rw [offlineRun, if_neg (by simp [h2]), if_neg (by simp [h1])]
    cases hs : e.sysOk
    · simp
    · simp only [Bool.not_true, if_false, Bool.false_eq_true]
      rw [if_pos h2]
      cases htc : e.tarballCheckOk
      · simp
      · simp only [Bool.not_true, if_false, Bool.false_eq_true]
        obtain ⟨r, hr⟩ := offlineOptionalValidations_prefix
          [.sysCheck, .validateTarball] rp cvp skipEnv e
        rw [hr]
        rfl

theorem C9_offline_flag_mutual_exclusivity_witness :
    offlineRun "" "" "" "" false
      ⟨true, true, true, true, true, some ("ubuntu", "22.04"), true, true,
        true, true, true⟩ = ([], false) ∧
    offlineRun "/a" "/b" "" "" false
      ⟨true, true, true, true, true, some ("ubuntu", "22.04"), true, true,
        true, true, true⟩ = ([], false) ∧
    (offlineRun "/a" "" "" "" false
      ⟨true, true, true, true, true, some ("ubuntu", "22.04"), true, true,
        true, true, true⟩).1.head? = some Step.sysCheck := by
  refine ⟨?_, ?_, ?_⟩
  · exact (C9_offline_flag_mutual_exclusivity "" "" "" "" false
      ⟨true, true, true, true, true, some ("ubuntu", "22.04"), true, true,
        true, true, true⟩).1 rfl rfl
  · exact (C9_offline_flag_mutual_exclusivity "/a" "/b" "" "" false
      ⟨true, true, true, true, true, some ("ubuntu", "22.04"), true, true,
        true, true, true⟩).2.1 (by decide) (by decide)
  · exact (C9_offline_flag_mutual_exclusivity "/a" "" "" "" false
      ⟨true, true, true, true, true, some ("ubuntu", "22.04"), true, true,
        true, true, true⟩).2.2.1 (by decide) rfl

/-! ## Environment file mutator (`AppendLineIfMissing`, utils/check.go) -/

/-- `unicode.IsSpace` restricted to the characters Go recognizes in the
Latin-1 range. -/
def goIsSpace (c : Char) : Bool :=
  c == ' ' || c == '\t' || c == '\n' || c == '\u000B' || c == '\u000C' ||
    c == '\r' || c == '\u0085' || c == '\u00A0'

/-- Trailing-whitespace trim, the second half of `strings.TrimSpace`. -/
def trimEnd (l : List Char) : List Char :=
  (l.reverse.dropWhile goIsSpace).reverse

/-- `strings.TrimSpace`: drop whitespace at both ends. -/
def trimSpace (l : List Char) : List Char :=
  (trimEnd l).dropWhile goIsSpace

/-- `bufio.ScanLines`'s `dropCR`: strip one trailing `'\r'`. -/
def dropCR (l : List Char) : List Char :=
  if l.getLast? == some '\r' then l.dropLast else l

/-- The tokens a `bufio.Scanner` with `ScanLines` produces, before
`dropCR`: `'\n'`-separated segments, where the empty segment after a final
newline is not reported and a non-terminated final segment is reported. -/
def scanTokens : List Char → List (List Char)
  | [] => []
  | c :: rest =>
    if c == '\n' then [] :: scanTokens rest
    else
      match scanTokens rest with
      | [] => [[c]]
      | t :: ts => (c :: t) :: ts

/-- The lines the scanner yields: each token with a trailing CR dropped. -/
def scanLines (s : List Char) : List (List Char) := (scanTokens s).map dropCR

/-- The scan `AppendLineIfMissing` performs: some line of the existing
content equals the new line after trimming. -/
def hasMatchingLine (content line : List Char) : Bool :=
  (scanLines content).any (fun l => trimSpace l == trimSpace line)

/-- `AppendLineIfMissing(file, line)` as a content transformer; `none` is a
file that does not exist yet (created by the append with `O_CREATE`). -/
def appendLineIfMissing (content : Option (List Char)) (line : List Char) :
    List Char :=
  match content with
  | none => line ++ ['\n']
  | some c => if hasMatchingLine c line then c else c ++ line ++ ['\n']

/-- How many scanned lines of `content` match `line` after trimming. -/
def countMatchingLines (content line : List Char) : Nat :=
  (scanLines content).countP (fun l => trimSpace l == trimSpace line)

/-- Content that is empty or ends with a newline. -/
def nlTerminated (c : List Char) : Bool :=
  c.isEmpty || c.getLast? == some '\n'

/-! ### Scanner lemmas -/

theorem scanTokens_cons (a : Char) (l : List Char) :
    scanTokens (a :: l) =
      if a == '\n' then [] :: scanTokens l
      else
        match scanTokens l with
        | [] => [[a]]
        | t :: ts => (a :: t) :: ts := rfl

theorem scanTokens_ne_nil (c : Char) (rest : List Char) :
    scanTokens (c :: rest) ≠ [] := by
  rw [scanTokens_cons]
  cases hc : c == '\n'
  · cases h : scanTokens rest <;> simp
  · simp

theorem scanTokens_append : ∀ c : List Char, nlTerminated c = true →
    ∀ s, scanTokens (c ++ s) = scanTokens c ++ scanTokens s := by
  intro c
  induction c with
  | nil => intro _ s; rfl
  | cons a c' ih =>
    intro hc s
    cases c' with
    | nil =>
      have ha : a = '\n' := by
        simpa [nlTerminated] using hc
      subst ha
      show scanTokens ('\n' :: s) = scanTokens ['\n'] ++ scanTokens s
      rw [scanTokens_cons]
      simp [scanTokens]
    | cons b c'' =>
      have hc' : nlTerminated (b :: c'') = true := by
        simp only [nlTerminated, List.getLast?_cons_cons] at hc ⊢
        simpa using hc
      obtain ⟨t, ts, hts⟩ : ∃ t ts, scanTokens (b :: c'') = t :: ts := by
        cases h : scanTokens (b :: c'') with
        | nil => exact absurd h (scanTokens_ne_nil b c'')
        | cons t ts => exact ⟨t, ts, rfl⟩
      have ihs := ih hc' s
      have e1 : (a :: b :: c'') ++ s = a :: ((b :: c'') ++ s) := rfl
      rw [e1, scanTokens_cons, ihs, hts, scanTokens_cons, hts]
      cases ha : a == '\n' <;> simp

theorem scanTokens_line_append_nl (line : List Char) (h : '\n' ∉ line) :
    scanTokens (line ++ ['\n']) = [line] := by
  induction line with
  | nil => rfl
  | cons a l ih =>
    have ha : (a == '\n') = false := by
      cases hx : a == '\n'
      · rfl
      · have := eq_of_beq hx
        subst this
        exact absurd (List.mem_cons_self _ _) h
    have h' : '\n' ∉ l := fun hm => h (List.mem_cons_of_mem a hm)
    rw [List.cons_append, scanTokens_cons, ih h', ha]
    simp

/-! ### Trim lemmas -/

theorem trimEnd_append_cr (m : List Char) : trimEnd (m ++ ['\r']) = trimEnd m := by
  have hr : goIsSpace '\r' = true := by decide
  simp [trimEnd, List.reverse_append, List.dropWhile_cons, hr]

theorem trimEnd_dropCR (l : List Char) : trimEnd (dropCR l) = trimEnd l := by
  rw [dropCR]
  cases hl : l.getLast? == some '\r'
  · simp
  · rw [if_pos rfl]
    have hsome : l.getLast? = some '\r' := eq_of_beq hl
    obtain ⟨m, hm⟩ := List.getLast?_eq_some_iff.mp hsome
    rw [hm, List.dropLast_concat, trimEnd_append_cr]

theorem trimSpace_dropCR (l : List Char) : trimSpace (dropCR l) = trimSpace l := by
  rw [trimSpace, trimSpace, trimEnd_dropCR]

theorem matchPred_dropCR (line : List Char) :
    (trimSpace (dropCR line) == trimSpace line) = true := by
  rw [trimSpace_dropCR]
  exact beq_self_eq_true _

/-! ### Line-count lemmas -/

theorem scanLines_append_line (c line : List Char)
    (hc : nlTerminated c = true) (hl : '\n' ∉ line) :
    scanLines (c ++ line ++ ['\n']) = scanLines c ++ [dropCR line] := by
  rw [List.append_assoc, scanLines, scanTokens_append c hc,
    scanTokens_line_append_nl line hl, List.map_append, scanLines]
  rfl

theorem countMatchingLines_append_line (c line : List Char)
    (hc : nlTerminated c = true) (hl : '\n' ∉ line) :
    countMatchingLines (c ++ line ++ ['\n']) line =
      countMatchingLines c line + 1 := by
  rw [countMatchingLines, scanLines_append_line c line hc hl,
    List.countP_append, countMatchingLines]
  simp [List.countP_cons, matchPred_dropCR line]

theorem hasMatchingLine_append_line (c line : List Char)
    (hc : nlTerminated c = true) (hl : '\n' ∉ line) :
    hasMatchingLine (c ++ line ++ ['\n']) line = true := by
  rw [hasMatchingLine, scanLines_append_line c line hc hl, List.any_append]
  simp [matchPred_dropCR line]

theorem countMatchingLines_eq_zero_of_not_has (c line : List Char)
    (h : hasMatchingLine c line = false) : countMatchingLines c line = 0 := by
  rw [countMatchingLines, List.countP_eq_zero]
  rw [hasMatchingLine, List.any_eq_false] at h
  exact h

theorem countMatchingLines_pos_of_has (c line : List Char)
    (h : hasMatchingLine c line = true) : 1 ≤ countMatchingLines c line := by
  rw [hasMatchingLine, List.any_eq_true] at h
  rw [countMatchingLines]
  exact List.countP_pos_iff.mpr h

/-- Claim C3 is false on the code: a file already holding the line twice is
left with two matching lines; on a file without a trailing newline the
appended line glues onto the last partial line, so the second call is not a
no-op; and a line containing an interior newline is appended as two lines
and never detected, so two calls do not leave one occurrence either. -/
theorem C3_line_append_counterexample :
    countMatchingLines
      (appendLineIfMissing
        (some (appendLineIfMissing (some ("x\nx\n").data) ("x").data))
        ("x").data) ("x").data ≠ 1 ∧
    appendLineIfMissing
        (some (appendLineIfMissing (some ("y").data) ("x").data))
        ("x").data ≠
      appendLineIfMissing (some ("y").data) ("x").data ∧
    countMatchingLines
      (appendLineIfMissing
        (some (appendLineIfMissing none ("x\nx").data)) ("x\nx").data)
      ("x\nx").data ≠ 1 := by
  refine ⟨by decide, by decide, by decide⟩

/-- Claim C3 (amended): for every line without an interior newline and every
absent, empty, or newline-terminated file content holding at most one line
that trim-matches the given line, one call leaves exactly one matching line
(appending `line + "\n"` exactly when no line trim-matched, creating the
file if absent) and the second call is a no-op. -/
theorem C3_line_append_amended (content : Option (List Char))
    (line : List Char) (hline : '\n' ∉ line)
    (hterm : ∀ c, content = some c → nlTerminated c = true)
    (hcount : ∀ c, content = some c → countMatchingLines c line ≤ 1) :
    countMatchingLines (appendLineIfMissing content line) line = 1 ∧
    appendLineIfMissing (some (appendLineIfMissing content line)) line =
      appendLineIfMissing content line ∧
    ∀ c, content = some c →
      (hasMatchingLine c line = false →
        appendLineIfMissing content line = c ++ line ++ ['\n']) ∧
      (hasMatchingLine c line = true →
        appendLineIfMissing content line = c) := by
  cases content with
  | none =>
    have h1 : countMatchingLines (line ++ ['\n']) line = 1 :=
      countMatchingLines_append_line [] line (by decide) hline
    have hm2 : hasMatchingLine (line ++ ['\n']) line = true :=
      hasMatchingLine_append_line [] line (by decide) hline
    refine ⟨h1, ?_, fun c h => Option.noConfusion h⟩
    show appendLineIfMissing (some (line ++ ['\n'])) line = line ++ ['\n']
    simp [appendLineIfMissing, hm2]
  | some c =>
    have hterm' := hterm c rfl
    have hcount' := hcount c rfl
    cases hm : hasMatchingLine c line
    · have happ : appendLineIfMissing (some c) line = c ++ line ++ ['\n'] := by
        simp [appendLineIfMissing, hm]
      have hzero := countMatchingLines_eq_zero_of_not_has c line hm
      have hcnt := countMatchingLines_append_line c line hterm' hline
      have hm2 := hasMatchingLine_append_line c line hterm' hline
      have hm2' : hasMatchingLine (c ++ (line ++ ['\n'])) line = true := by
        rw [← List.append_assoc]
        exact hm2
      refine ⟨?_, ?_, ?_⟩
      · rw [happ, hcnt, hzero]
      · rw [happ]
        simp [appendLineIfMissing, hm2, hm2']
      · intro c' hc'
        injection hc' with hcc
        subst hcc
        exact ⟨fun _ => happ,
          fun hmt => absurd (hm.symm.trans hmt) (by decide)⟩
    · have happ : appendLineIfMissing (some c) line = c := by
        simp [appendLineIfMissing, hm]
      have hpos := countMatchingLines_pos_of_has c line hm
      refine ⟨?_, ?_, ?_⟩
      · rw [happ]
        omega
      · rw [happ]
        simp [appendLineIfMissing, hm]
      · intro c' hc'
        injection hc' with hcc
        subst hcc
        exact ⟨fun hmf => absurd (hm.symm.trans hmf) (by decide),
          fun _ => happ⟩

theorem C3_line_append_amended_witness :
    countMatchingLines
      (appendLineIfMissing (some ("export A=1\n").data) ("export B=2").data)
      ("export B=2").data = 1 ∧
    appendLineIfMissing
        (some (appendLineIfMissing (some ("export A=1\n").data)
          ("export B=2").data)) ("export B=2").data =
      appendLineIfMissing (some ("export A=1\n").data)
        ("export B=2").data := by
  have h := C3_line_append_amended (some ("export A=1\n").data)
    ("export B=2").data (by decide)
    (fun c hc => by cases hc; decide)
    (fun c hc => by cases hc; decide)
  exact ⟨h.1, h.2.1⟩

end BBInstaller
